import Mathlib

/-!
Shallow embedding of `src/assignment2.py`, a small program that parses a
downloaded CSV file into a dictionary keyed by identifier and serves
interactive lookups.  Pure fragments of the Python code are translated to
Lean functions; the error log becomes an explicit list of messages, the
interactive while-loop becomes a step function on an explicit state, and
exceptions escaping `processData` become an `Except` error value.
-/

/-- The date part of the `datetime` object produced by
`datetime.strptime(s, "%d/%m/%Y")` (the time-of-day component is always
midnight and is never used by the program). -/
structure Date where
  year : Nat
  month : Nat
  day : Nat
deriving DecidableEq, Repr, Inhabited

/-- Gregorian leap-year rule used by Python's `datetime` module. -/
def isLeap (y : Nat) : Bool :=
  y % 4 == 0 && (y % 100 != 0 || y % 400 == 0)

/-- Number of days of month `m` in year `y`, as validated by the
`datetime` constructor. -/
def daysInMonth (m y : Nat) : Nat :=
  if m == 2 then (if isLeap y then 29 else 28)
  else if m == 4 || m == 6 || m == 9 || m == 11 then 30
  else 31

/-- Numeric value of a decimal digit character. -/
def digitVal (c : Char) : Nat := c.toNat - '0'.toNat

/-- Numeric value of a list of decimal digit characters. -/
def digitsVal (l : List Char) : Nat :=
  l.foldl (fun a c => a * 10 + digitVal c) 0

/-- Split a character list at every occurrence of `sep`
(like Python `str.split` with a one-character separator). -/
def splitOnCharAux (sep : Char) : List Char → List Char → List (List Char)
  | [], acc => [acc.reverse]
  | c :: rest, acc =>
      if c == sep then acc.reverse :: splitOnCharAux sep rest []
      else splitOnCharAux sep rest (c :: acc)

/-- Split a character list at every occurrence of `sep`. -/
def splitOnChar (sep : Char) (l : List Char) : List (List Char) :=
  splitOnCharAux sep l []

/-- `datetime.strptime(s, "%d/%m/%Y")`: the day and the month are one or two
digits, the year exactly four digits, the separators are slashes, the whole
string must be consumed, and the `(year, month, day)` triple must be a real
calendar date with `year ≥ 1`.  Returns `none` exactly where Python raises
`ValueError`. -/
def strptimeDMY (s : String) : Option Date :=
  match splitOnChar '/' s.toList with
  | [ds, ms, ys] =>
      if ds.length == 0 || 2 < ds.length || !ds.all Char.isDigit then none
      else if ms.length == 0 || 2 < ms.length || !ms.all Char.isDigit then none
      else if ys.length != 4 || !ys.all Char.isDigit then none
      else
        let d := digitsVal ds
        let m := digitsVal ms
        let y := digitsVal ys
        if 1 ≤ d ∧ d ≤ 31 ∧ 1 ≤ m ∧ m ≤ 12 ∧ 1 ≤ y ∧ d ≤ daysInMonth m y
        then some ⟨y, m, d⟩ else none
  | _ => none

/-- One line through `csv.reader` (default dialect, stepping over the
characters of the line): commas separate fields, a double quote toggles a
quoted section, a doubled quote inside a quoted section is a literal
quote. -/
def csvSplitAux : List Char → List Char → Bool → List (List Char)
  | [], acc, _ => [acc.reverse]
  | '"' :: '"' :: rest, acc, true => csvSplitAux rest ('"' :: acc) true
  | '"' :: rest, acc, inQ => csvSplitAux rest acc (!inQ)
  | ',' :: rest, acc, false => acc.reverse :: csvSplitAux rest [] false
  | c :: rest, acc, inQ => csvSplitAux rest (c :: acc) inQ

/-- The record `csv.reader` yields for one input line: a blank line gives
the empty record, otherwise the comma-separated fields. -/
def csvSplitLine (s : String) : List String :=
  if s.toList == [] then []
  else (csvSplitAux s.toList [] false).map fun l => String.mk l

/-- Helper for `pySplitlines`, walking the characters with an accumulator
for the current line. -/
def splitLinesAux : List Char → List Char → List (List Char)
  | [], [] => []
  | [], acc => [acc.reverse]
  | '\r' :: '\n' :: rest, acc => acc.reverse :: splitLinesAux rest []
  | '\n' :: rest, acc => acc.reverse :: splitLinesAux rest []
  | '\r' :: rest, acc => acc.reverse :: splitLinesAux rest []
  | c :: rest, acc => splitLinesAux rest (c :: acc)

/-- Python `str.splitlines()` restricted to the `\n`, `\r\n` and `\r`
line boundaries: no trailing empty line, and the empty string yields no
lines at all. -/
def pySplitlines (s : String) : List String :=
  (splitLinesAux s.toList []).map fun l => String.mk l

/-- The dictionary built by `processData`: identifier to (name, birthday),
as an insertion-ordered association list, matching Python `dict`. -/
abbrev Table := List (String × String × Date)

/-- Python `dict.get`: the value stored at `key`, if any. -/
def lookupTable : Table → String → Option (String × Date)
  | [], _ => none
  | (k, v) :: rest, key => if k == key then some v else lookupTable rest key

/-- Python `d[key] = v`: overwrite in place if the key is present,
append otherwise. -/
def insertTable : Table → String → String × Date → Table
  | [], key, v => [(key, v)]
  | (k, w) :: rest, key, v =>
      if k == key then (k, v) :: rest else (k, w) :: insertTable rest key v

/-- Exceptions that can escape `processData`: `StopIteration` from reading
the header of an input with no lines, and `IndexError` from a row with a
missing column.  (`ValueError` from a malformed date is caught inside the
loop and never escapes.) -/
inductive PyError where
  | stopIteration
  | indexError
deriving DecidableEq, Repr

/-- The error-log message written for a row whose date fails to parse:
`logging.error(f"Error processing line #{line_num} for ID #{id_}: {row[2]}")`. -/
def logMsg (lineNum : Nat) (i bs : String) : String :=
  "Error processing line #" ++ toString lineNum ++ " for ID #" ++ i ++ ": " ++ bs

/-- The row loop of `processData`: `line_num` counts data rows from 1;
`row[0]`, `row[1]` and `row[2]` raise `IndexError` when absent; a date
failing `strptime` logs one message and skips the row; otherwise the entry
is stored (overwriting any previous binding of the identifier). -/
def processRows : Table → List String → Nat → List (List String) →
    Except PyError (Table × List String)
  | d, logs, _, [] => Except.ok (d, logs)
  | d, logs, n, row :: rest =>
      match row.get? 0 with
      | none => Except.error PyError.indexError
      | some i =>
        match row.get? 1 with
        | none => Except.error PyError.indexError
        | some nm =>
          match row.get? 2 with
          | none => Except.error PyError.indexError
          | some bs =>
            match strptimeDMY bs with
            | none => processRows d (logs ++ [logMsg n i bs]) (n + 1) rest
            | some bd => processRows (insertTable d i (nm, bd)) (logs) (n + 1) rest

/-- `processData(csvData)`: split the text into lines, feed them to
`csv.reader`, discard the header record (raising `StopIteration` when there
is none), then run the row loop.  The result carries the dictionary and the
error-log messages written. -/
def processData (csvData : String) : Except PyError (Table × List String) :=
  match pySplitlines csvData with
  | [] => Except.error PyError.stopIteration
  | _ :: dataLines => processRows [] [] 1 (dataLines.map csvSplitLine)

/-- Zero-padded two-digit rendering (strftime `%m`, `%d`). -/
def pad2 (n : Nat) : String :=
  if n < 10 then "0" ++ toString n else toString n

/-- Zero-padded four-digit rendering (strftime `%Y`). -/
def pad4 (n : Nat) : String :=
  if n < 10 then "000" ++ toString n
  else if n < 100 then "00" ++ toString n
  else if n < 1000 then "0" ++ toString n
  else toString n

/-- `birthday.strftime("%Y-%m-%d")`. -/
def pyStrftimeYMD (d : Date) : String :=
  pad4 d.year ++ "-" ++ pad2 d.month ++ "-" ++ pad2 d.day

/-- `displayPerson(id, personData)`: the line printed for a lookup.  (The
tuple stored in the dictionary is always truthy, so Python's `if person:`
tests presence.) -/
def displayPerson (i : String) (personData : Table) : String :=
  match lookupTable personData i with
  | some (name, birthday) =>
      "Person #" ++ i ++ " is " ++ name ++ " with a birthday of " ++
        pyStrftimeYMD birthday ++ "."
  | none => "No person found with ID #" ++ i ++ "."

/-- The whitespace characters `int()` strips from its string argument
(restricted to ASCII). -/
def pyWhitespace (c : Char) : Bool :=
  c == ' ' || c == '\t' || c == '\n' || c == '\r' || c == '\x0b' || c == '\x0c'

/-- Strip leading and trailing whitespace. -/
def stripWs (l : List Char) : List Char :=
  ((l.dropWhile pyWhitespace).reverse.dropWhile pyWhitespace).reverse

/-- After a first digit: digits, with single underscores allowed only
between digits. -/
def goDigits : List Char → Bool
  | [] => true
  | '_' :: rest =>
      match rest with
      | [] => false
      | c :: rest2 => c.isDigit && goDigits rest2
  | c :: rest => c.isDigit && goDigits rest

/-- A valid `int()` digit sequence: nonempty, starts with a digit, single
underscores only between digits. -/
def validDigits : List Char → Bool
  | [] => false
  | c :: rest => c.isDigit && goDigits rest

/-- Numeric value of a digit sequence with its underscores removed. -/
def digitsValU (l : List Char) : Nat :=
  digitsVal (l.filter fun c => c != '_')

/-- Python `int(string)`: strip whitespace, allow one optional sign, then
decimal digits with single underscores between digits.  Returns `none`
exactly where Python raises `ValueError`. -/
def pyInt (s : String) : Option Int :=
  match stripWs s.toList with
  | '+' :: rest =>
      if validDigits rest then some (Int.ofNat (digitsValU rest)) else none
  | '-' :: rest =>
      if validDigits rest then some (-(Int.ofNat (digitsValU rest))) else none
  | l => if validDigits l then some (Int.ofNat (digitsValU l)) else none

/-- The character for the decimal digit `n < 10`. -/
def digitChar (n : Nat) : Char := Char.ofNat ('0'.toNat + n)

/-- Fueled decimal rendering of a natural number, most significant digit
first. -/
def natDecAux : Nat → Nat → List Char → List Char
  | 0, _, acc => acc
  | fuel + 1, n, acc =>
      if n < 10 then digitChar n :: acc
      else natDecAux fuel (n / 10) (digitChar (n % 10) :: acc)

/-- Python `str` of a nonnegative integer: plain decimal digits, no sign,
no leading zero (except for `0` itself). -/
def pyStrNat (n : Nat) : String := String.mk (natDecAux (n + 1) n [])

/-- Python `str(int)`. -/
def pyStrInt (n : Int) : String :=
  if n < 0 then "-" ++ pyStrNat n.natAbs else pyStrNat n.toNat

/-- The two states of the interactive loop of `main`. -/
inductive LoopState where
  | prompting
  | terminated
deriving DecidableEq, Repr

/-- One iteration of the `while True` loop of `main`, from the dictionary
and one line of user input: the message printed, the next loop state, and
the error-log entries written by the iteration (the loop body contains no
logging call, so that component is always empty). -/
def loopStep (personData : Table) (userInput : String) :
    String × LoopState × List String :=
  match pyInt userInput with
  | none => ("Please enter a valid integer ID.", LoopState.prompting, [])
  | some n =>
      if n ≤ 0 then ("Exiting the program.", LoopState.terminated, [])
      else (displayPerson (pyStrInt n) personData, LoopState.prompting, [])

/-- Field `row[0]` of a row, the identifier. -/
def rowId (r : List String) : String := r.getD 0 ""

/-- Field `row[1]` of a row, the name. -/
def rowName (r : List String) : String := r.getD 1 ""

/-- Field `row[2]` of a row, the birthday text. -/
def rowBday (r : List String) : String := r.getD 2 ""

/-- The parsed date of a row whose birthday text parses. -/
def rowDate (r : List String) : Date :=
  (strptimeDMY (rowBday r)).getD ⟨1, 1, 1⟩

/-- The last element of a list of rows satisfying `p`, if any. -/
def lastWith (p : List String → Bool) : List (List String) → Option (List String)
  | [] => none
  | r :: rest =>
      match lastWith p rest with
      | some x => some x
      | none => if p r then some r else none

/-- Modelled from the spec: the ISO `YYYY-MM-DD` rendering of a calendar
date, zero-padded year-month-day. -/
def isoOfYMD (y m d : Nat) : String :=
  pad4 y ++ "-" ++ pad2 m ++ "-" ++ pad2 d

/-- Modelled from the spec: a canonical positive-integer decimal string —
nonempty, all digits, no leading zero. -/
def isCanonicalPosDec (s : String) : Bool :=
  match s.toList with
  | [] => false
  | c :: rest => c.isDigit && c != '0' && rest.all Char.isDigit

example : strptimeDMY "15/06/1990" = some ⟨1990, 6, 15⟩ := by decide
example : strptimeDMY "31/13/2000" = none := by decide
example : strptimeDMY "29/02/1900" = none := by decide
example : strptimeDMY "29/02/2000" = some ⟨2000, 2, 29⟩ := by decide
example : pyInt " 1 " = some 1 := by decide
example : pyInt "+1" = some 1 := by decide
example : pyInt "01" = some 1 := by decide
example : pyInt "abc" = none := by decide
example : pyInt "" = none := by decide
example : pyInt "-5" = some (-5) := by decide
example : pyStrInt 1 = "1" := by decide
example : pyStrInt 42 = "42" := by decide
example : pySplitlines "a\nb\n" = ["a", "b"] := by decide
example : pySplitlines "" = [] := by decide
example : csvSplitLine "1,Alice,15/06/1990" = ["1", "Alice", "15/06/1990"] := by decide
example : csvSplitLine "" = [] := by decide

theorem lookupTable_insertTable (d : Table) (k key : String) (v : String × Date) :
    lookupTable (insertTable d k v) key =
      if k == key then some v else lookupTable d key := by
  induction d with
  | nil => by_cases h : k == key <;> simp [insertTable, lookupTable, h]
  | cons e rest ih =>
      obtain ⟨k0, w⟩ := e
      by_cases h0 : k0 == k
      · have hk : k0 = k := by simpa using h0
        subst hk
        by_cases h1 : k0 == key <;> simp [insertTable, lookupTable, h0, h1]
      · by_cases h1 : k0 == key
        · have hk : k0 = key := by simpa using h1
          subst hk
          have : ¬ (k == k0) := by
            intro hc
            exact h0 (by simpa using (by simpa using hc : k = k0).symm)
          simp [insertTable, lookupTable, h0, h1, this, ih]
        · simp [insertTable, lookupTable, h0, h1, ih]

theorem length_insertTable_of_not_mem (d : Table) (k : String) (v : String × Date)
    (h : lookupTable d k = none) :
    (insertTable d k v).length = d.length + 1 := by
  induction d with
  | nil => simp [insertTable]
  | cons e rest ih =>
      obtain ⟨k0, w⟩ := e
      by_cases h0 : k0 == k
      · simp [lookupTable, h0] at h
      · simp [lookupTable, h0] at h
        simp [insertTable, h0, ih h]

theorem getElem?_eq_getD (l : List String) (i : Nat) (h : i < l.length) :
    l[i]? = some (l.getD i "") := by
  rw [List.getD, List.get?_eq_getElem?, List.getElem?_eq_getElem h]
  rfl

theorem processRows_ok_of_good (rows : List (List String)) :
    ∀ (d : Table) (logs : List String) (n : Nat),
    (∀ r ∈ rows, 3 ≤ r.length) →
    (∀ r ∈ rows, (strptimeDMY (rowBday r)).isSome = true) →
    (rows.map rowId).Nodup →
    (∀ r ∈ rows, lookupTable d (rowId r) = none) →
    ∃ t, processRows d logs n rows = Except.ok (t, logs) ∧
      t.length = d.length + rows.length := by
  induction rows with
  | nil => intro d logs n _ _ _ _; exact ⟨d, rfl, by simp⟩
  | cons r rest ih =>
      intro d logs n hlen hparse hnodup hfresh
      have hr3 : 3 ≤ r.length := hlen r (by simp)
      have h0 : r[0]? = some (rowId r) := getElem?_eq_getD r 0 (by omega)
      have h1 : r[1]? = some (rowName r) := getElem?_eq_getD r 1 (by omega)
      have h2 : r[2]? = some (rowBday r) := getElem?_eq_getD r 2 (by omega)
      obtain ⟨bd, hbd⟩ := Option.isSome_iff_exists.mp (hparse r (by simp))
      have hstep : processRows d logs n (r :: rest) =
          processRows (insertTable d (rowId r) (rowName r, bd)) logs (n + 1) rest := by
        simp [processRows, h0, h1, h2, hbd]
      have hfresh0 : lookupTable d (rowId r) = none := hfresh r (by simp)
      have hnotin : ∀ x ∈ rest, ¬ rowId x = rowId r := by
        have := hnodup
        simp [List.nodup_cons] at this
        exact this.1
      obtain ⟨t, hrun, hlenq⟩ := ih (insertTable d (rowId r) (rowName r, bd)) logs (n + 1)
        (fun x hx => hlen x (by simp [hx]))
        (fun x hx => hparse x (by simp [hx]))
        (by simpa [List.nodup_cons] using hnodup.of_cons)
        (by
          intro x hx
          rw [lookupTable_insertTable]
          have hne : ¬ (rowId r == rowId x) := by
            simp only [beq_iff_eq]
            intro hc
            exact hnotin x hx hc.symm
          simp [hne, hfresh x (by simp [hx])])
      refine ⟨t, ?_, ?_⟩
      · rw [hstep, hrun]
      · rw [hlenq, length_insertTable_of_not_mem d _ _ hfresh0]
        simp
        omega

theorem processRows_lookup_lastWith (rows : List (List String)) :
    ∀ (d : Table) (logs : List String) (n : Nat) (k : String),
    (∀ r ∈ rows, 3 ≤ r.length) →
    (∀ r ∈ rows, (strptimeDMY (rowBday r)).isSome = true) →
    ∃ t l2, processRows d logs n rows = Except.ok (t, l2) ∧
      lookupTable t k =
        (match lastWith (fun r => rowId r == k) rows with
         | some rs => some (rowName rs, rowDate rs)
         | none => lookupTable d k) := by
  induction rows with
  | nil => intro d logs n k _ _; exact ⟨d, logs, rfl, by simp [lastWith]⟩
  | cons r rest ih =>
      intro d logs n k hlen hparse
      have hr3 : 3 ≤ r.length := hlen r (by simp)
      have h0 : r[0]? = some (rowId r) := getElem?_eq_getD r 0 (by omega)
      have h1 : r[1]? = some (rowName r) := getElem?_eq_getD r 1 (by omega)
      have h2 : r[2]? = some (rowBday r) := getElem?_eq_getD r 2 (by omega)
      obtain ⟨bd, hbd⟩ := Option.isSome_iff_exists.mp (hparse r (by simp))
      have hdate : rowDate r = bd := by simp [rowDate, hbd]
      have hstep : processRows d logs n (r :: rest) =
          processRows (insertTable d (rowId r) (rowName r, bd)) logs (n + 1) rest := by
        simp [processRows, h0, h1, h2, hbd]
      obtain ⟨t, l2, hrun, hlook⟩ := ih (insertTable d (rowId r) (rowName r, bd)) logs (n + 1) k
        (fun x hx => hlen x (by simp [hx]))
        (fun x hx => hparse x (by simp [hx]))
      refine ⟨t, l2, by rw [hstep, hrun], ?_⟩
      rw [hlook]
      cases hlast : lastWith (fun x => rowId x == k) rest with
      | some rs => simp [lastWith, hlast]
      | none =>
          by_cases hk : rowId r == k
          · have hkk : rowId r = k := by simpa using hk
            simp [lastWith, hlast, hk, lookupTable_insertTable, hdate]
          · simp [lastWith, hlast, hk, lookupTable_insertTable]

theorem processRows_error_of_short (rows : List (List String)) :
    ∀ (d : Table) (logs : List String) (n : Nat),
    (∃ r ∈ rows, r.length < 3) →
    processRows d logs n rows = Except.error PyError.indexError := by
  induction rows with
  | nil => intro d logs n h; simp at h
  | cons r rest ih =>
      intro d logs n h
      by_cases hr : r.length < 3
      · match r, hr with
        | [], _ => simp [processRows]
        | [a], _ => simp [processRows]
        | [a, b], _ => simp [processRows]
      · have hr3 : 3 ≤ r.length := by omega
        have h0 : r[0]? = some (rowId r) := getElem?_eq_getD r 0 (by omega)
        have h1 : r[1]? = some (rowName r) := getElem?_eq_getD r 1 (by omega)
        have h2 : r[2]? = some (rowBday r) := getElem?_eq_getD r 2 (by omega)
        have hrest : ∃ x ∈ rest, x.length < 3 := by
          obtain ⟨x, hx, hxs⟩ := h
          rcases List.mem_cons.mp hx with hxr | hxrest
          · exact absurd (hxr ▸ hxs) hr
          · exact ⟨x, hxrest, hxs⟩
        cases hbd : strptimeDMY (rowBday r) with
        | none => simp [processRows, h0, h1, h2, hbd, ih _ _ _ hrest]
        | some bd => simp [processRows, h0, h1, h2, hbd, ih _ _ _ hrest]

theorem digitChar_isDigit (n : Nat) (h : n < 10) : (digitChar n).isDigit = true := by
  interval_cases n <;> decide

theorem digitChar_ne_zero (n : Nat) (h1 : 1 ≤ n) (h2 : n < 10) :
    (digitChar n != '0') = true := by
  interval_cases n <;> decide

theorem natDecAux_spec (fuel : Nat) :
    ∀ (n : Nat) (acc : List Char), 1 ≤ fuel → n < 10 ^ fuel →
    ∃ c ds, natDecAux fuel n acc = c :: ds ++ acc ∧ c.isDigit = true ∧
      (∀ x ∈ ds, x.isDigit = true) ∧ (1 ≤ n → (c != '0') = true) := by
  induction fuel with
  | zero => intro n acc h; omega
  | succ f ih =>
      intro n acc _ hbound
      by_cases hn : n < 10
      · refine ⟨digitChar n, [], ?_, digitChar_isDigit n hn, by simp, fun h1 => digitChar_ne_zero n h1 hn⟩
        simp [natDecAux, hn]
      · have hf1 : 1 ≤ f := by
          by_contra hf
          have : f = 0 := by omega
          subst this
          simp at hbound
          omega
        have hdiv : n / 10 < 10 ^ f := by
          rw [Nat.div_lt_iff_lt_mul (by norm_num)]
          calc n < 10 ^ (f + 1) := hbound
          _ = 10 ^ f * 10 := by ring
        obtain ⟨c, ds, heq, hcd, hds, hcz⟩ := ih (n / 10) (digitChar (n % 10) :: acc) hf1 hdiv
        refine ⟨c, ds ++ [digitChar (n % 10)], ?_, hcd, ?_, fun _ => hcz (by omega)⟩
        · rw [natDecAux, if_neg hn, heq]
          simp
        · intro x hx
          rcases List.mem_append.mp hx with hx1 | hx2
          · exact hds x hx1
          · simp at hx2
            subst hx2
            exact digitChar_isDigit _ (Nat.mod_lt n (by norm_num))

theorem isCanonicalPosDec_pyStrNat (m : Nat) (h : 1 ≤ m) :
    isCanonicalPosDec (pyStrNat m) = true := by
  have hb : m < 10 ^ (m + 1) := by
    calc m < 10 ^ m := Nat.lt_pow_self (by norm_num) m
    _ ≤ 10 ^ (m + 1) := Nat.pow_le_pow_right (by norm_num) (by omega)
  obtain ⟨c, ds, heq, hcd, hds, hcz⟩ := natDecAux_spec (m + 1) m [] (by omega) hb
  have : pyStrNat m = String.mk (c :: ds) := by
    rw [pyStrNat, heq]
    simp
  rw [this]
  simp [isCanonicalPosDec, hcd, hcz h]
  intro x hx
  exact hds x hx

theorem isCanonicalPosDec_pyStrInt (n : Int) (h : 0 < n) :
    isCanonicalPosDec (pyStrInt n) = true := by
  rw [pyStrInt, if_neg (by omega)]
  exact isCanonicalPosDec_pyStrNat n.toNat (by omega)

/-- Claim C1: for every CSV input with a header and N data rows, all rows having
at least 3 fields, pairwise distinct identifiers and parseable birthdates,
`processData` succeeds with a table of exactly N entries. -/
theorem c1_all_valid_rows_counted (text hd : String) (dataLines : List String)
    (hsplit : pySplitlines text = hd :: dataLines)
    (hlen : ∀ r ∈ dataLines.map csvSplitLine, 3 ≤ r.length)
    (hparse : ∀ r ∈ dataLines.map csvSplitLine, (strptimeDMY (rowBday r)).isSome = true)
    (hnodup : ((dataLines.map csvSplitLine).map rowId).Nodup) :
    ∃ t logs, processData text = Except.ok (t, logs) ∧ t.length = dataLines.length := by
  obtain ⟨t, hrun, hl⟩ := processRows_ok_of_good (dataLines.map csvSplitLine) [] [] 1
    hlen hparse hnodup (fun x _ => rfl)
  refine ⟨t, [], ?_, ?_⟩
  · simp only [processData]
    rw [hsplit]
    exact hrun
  · rw [hl]
    simp

theorem c1_witness :
    ∃ t logs,
      processData "id,name,birthday\n1,Alice,15/06/1990\n3,Carol,29/02/2000\n" =
        Except.ok (t, logs) ∧ t.length = 2 :=
  c1_all_valid_rows_counted _ "id,name,birthday" ["1,Alice,15/06/1990", "3,Carol,29/02/2000"]
    rfl (by decide) (by decide) (by decide)

/-- Claim C2: a data row whose birthdate fails to parse is skipped: the
dictionary is passed on unchanged, exactly one error-log entry naming the
row's line number and identifier is appended, and parsing continues with
the remaining rows. -/
theorem c2_bad_date_row_local (d : Table) (logs : List String) (n : Nat)
    (row : List String) (rest : List (List String)) (i nm bs : String)
    (h0 : row[0]? = some i) (h1 : row[1]? = some nm) (h2 : row[2]? = some bs)
    (hbad : strptimeDMY bs = none) :
    processRows d logs n (row :: rest) =
      processRows d (logs ++ [logMsg n i bs]) (n + 1) rest ∧
    logMsg n i bs =
      "Error processing line #" ++ toString n ++ " for ID #" ++ i ++ ": " ++ bs := by
  refine ⟨?_, rfl⟩
  simp [processRows, h0, h1, h2, hbad]

theorem c2_witness :
    processRows [] [] 1 [["2", "Bob", "31/13/2000"]] =
      processRows [] ([] ++ [logMsg 1 "2" "31/13/2000"]) 2 [] ∧
    logMsg 1 "2" "31/13/2000" =
      "Error processing line #1 for ID #2: 31/13/2000" :=
  c2_bad_date_row_local [] [] 1 ["2", "Bob", "31/13/2000"] [] "2" "Bob" "31/13/2000"
    rfl rfl rfl rfl

/-- Claim C3: end-to-end example: the two-row CSV yields exactly the table with
Alice under key "1" and one log entry for line 2, ID 2; querying "1" prints
her record, querying "2" prints the not-found message, and "0" terminates
the loop. -/
theorem c3_end_to_end :
    processData "id,name,birthday\n1,Alice,15/06/1990\n2,Bob,31/13/2000\n" =
      Except.ok ([("1", ("Alice", ⟨1990, 6, 15⟩))],
        ["Error processing line #2 for ID #2: 31/13/2000"]) ∧
    loopStep [("1", ("Alice", ⟨1990, 6, 15⟩))] "1" =
      ("Person #1 is Alice with a birthday of 1990-06-15.", LoopState.prompting, []) ∧
    loopStep [("1", ("Alice", ⟨1990, 6, 15⟩))] "2" =
      ("No person found with ID #2.", LoopState.prompting, []) ∧
    loopStep [("1", ("Alice", ⟨1990, 6, 15⟩))] "0" =
      ("Exiting the program.", LoopState.terminated, []) :=
  ⟨by rfl, by rfl, by rfl, by rfl⟩

/-- Claim C4: when two or more data rows share an identifier (all rows valid),
the table binds that identifier to the name and birthdate of the last such
row in input order. -/
theorem c4_duplicate_last_wins (text hd : String) (dataLines : List String)
    (k : String) (rstar : List String)
    (hsplit : pySplitlines text = hd :: dataLines)
    (hlen : ∀ r ∈ dataLines.map csvSplitLine, 3 ≤ r.length)
    (hparse : ∀ r ∈ dataLines.map csvSplitLine, (strptimeDMY (rowBday r)).isSome = true)
    (_hdup : 2 ≤ ((dataLines.map csvSplitLine).filter (fun r => rowId r == k)).length)
    (hlast : lastWith (fun r => rowId r == k) (dataLines.map csvSplitLine) = some rstar) :
    ∃ t l2, processData text = Except.ok (t, l2) ∧
      lookupTable t k = some (rowName rstar, rowDate rstar) := by
  obtain ⟨t, l2, hrun, hlook⟩ :=
    processRows_lookup_lastWith (dataLines.map csvSplitLine) [] [] 1 k hlen hparse
  refine ⟨t, l2, ?_, ?_⟩
  · simp only [processData]
    rw [hsplit]
    exact hrun
  · rw [hlook, hlast]

theorem c4_witness :
    ∃ t l2,
      processData "id,name,birthday\n1,Alice,15/06/1990\n1,Bob,16/07/1991\n" =
        Except.ok (t, l2) ∧
      lookupTable t "1" = some ("Bob", ⟨1991, 7, 16⟩) :=
  c4_duplicate_last_wins _ "id,name,birthday" ["1,Alice,15/06/1990", "1,Bob,16/07/1991"]
    "1" ["1", "Bob", "16/07/1991"] rfl (by decide) (by decide) (by decide) (by decide)

/-- Claim C5: a lookup of a record present in the table prints the birthdate in
ISO YYYY-MM-DD form, for any DD/MM/YYYY input text the date was parsed
from. -/
theorem c5_display_iso_date (t : Table) (i name : String) (d : Date) (s : String)
    (hlook : lookupTable t i = some (name, d)) (_hparse : strptimeDMY s = some d) :
    displayPerson i t =
      "Person #" ++ i ++ " is " ++ name ++ " with a birthday of " ++
        isoOfYMD d.year d.month d.day ++ "." := by
  simp [displayPerson, hlook, pyStrftimeYMD, isoOfYMD]

theorem c5_witness :
    displayPerson "1" [("1", ("Alice", ⟨1990, 6, 15⟩))] =
      "Person #1 is Alice with a birthday of 1990-06-15." :=
  c5_display_iso_date [("1", ("Alice", ⟨1990, 6, 15⟩))] "1" "Alice" ⟨1990, 6, 15⟩
    "15/6/1990" rfl rfl

/-- Claim C6: a data row with fewer than 3 fields makes `processData` fail with
an IndexError (the out-of-range access is not caught), instead of being
logged and skipped. -/
theorem c6_short_row_index_error (text hd : String) (dataLines : List String)
    (r : List String)
    (hsplit : pySplitlines text = hd :: dataLines)
    (hmem : r ∈ dataLines.map csvSplitLine) (hshort : r.length < 3) :
    processData text = Except.error PyError.indexError := by
  have h := processRows_error_of_short (dataLines.map csvSplitLine) [] [] 1 ⟨r, hmem, hshort⟩
  simp only [processData]
  rw [hsplit]
  exact h

theorem c6_witness :
    processData "id,name,birthday\n1,Alice\n" = Except.error PyError.indexError :=
  c6_short_row_index_error _ "id,name,birthday" ["1,Alice"] ["1", "Alice"]
    rfl (by decide) (by decide)

/-- Claim C7, counterexample: on input with zero lines, `processData` fails with
`StopIteration` raised by reading the header record — the program defines
no `MalformedInputError` class. -/
theorem c7_counterexample :
    processData "" = Except.error PyError.stopIteration := by rfl

/-- Claim C7 as amended: on input text with zero lines, `processData` fails with
an uncaught `StopIteration` from discarding the header, rather than
silently returning an empty table. -/
theorem c7_empty_input_fails (text : String) (h : pySplitlines text = []) :
    processData text = Except.error PyError.stopIteration := by
  simp only [processData]
  rw [h]

theorem c7_witness :
    processData "" = Except.error PyError.stopIteration :=
  c7_empty_input_fails "" rfl

/-- Claim C8: an input line parsing as an integer ≤ 0 prints the exit message and
moves the loop from Prompting to Terminated; any other input (a positive
integer or a non-integer) leaves the loop in Prompting. -/
theorem c8_sentinel_terminates (t : Table) (s : String) :
    (∀ n : Int, pyInt s = some n → n ≤ 0 →
      loopStep t s = ("Exiting the program.", LoopState.terminated, [])) ∧
    ((pyInt s = none ∨ ∃ n : Int, pyInt s = some n ∧ 0 < n) →
      (loopStep t s).2.1 = LoopState.prompting) := by
  constructor
  · intro n hn hle
    simp [loopStep, hn, hle]
  · rintro (hnone | ⟨n, hn, hpos⟩)
    · simp [loopStep, hnone]
    · rw [loopStep, hn]
      simp only [if_neg (by omega : ¬ n ≤ 0)]

theorem c8_witness :
    loopStep [] "0" = ("Exiting the program.", LoopState.terminated, []) ∧
    loopStep [] "-3" = ("Exiting the program.", LoopState.terminated, []) ∧
    (loopStep [] "7").2.1 = LoopState.prompting ∧
    (loopStep [] "xyz").2.1 = LoopState.prompting :=
  ⟨(c8_sentinel_terminates [] "0").1 0 (by decide) (by decide),
   (c8_sentinel_terminates [] "-3").1 (-3) (by decide) (by decide),
   (c8_sentinel_terminates [] "7").2 (Or.inr ⟨7, by decide, by decide⟩),
   (c8_sentinel_terminates [] "xyz").2 (Or.inl (by decide))⟩

/-- Claim C9: a non-integer input line prints the invalid-integer message, keeps
the loop in Prompting, and writes nothing to the error log. -/
theorem c9_invalid_integer_nonfatal (t : Table) (s : String) (h : pyInt s = none) :
    loopStep t s = ("Please enter a valid integer ID.", LoopState.prompting, []) := by
  simp [loopStep, h]

theorem c9_witness :
    loopStep [] "abc" = ("Please enter a valid integer ID.", LoopState.prompting, []) :=
  c9_invalid_integer_nonfatal [] "abc" (by decide)

/-- Claim C10: a positive-integer input is canonicalized before lookup: the
queried key is `str(int(input))`, which is always a nonempty all-digit
string without a leading zero — so a stored identifier that is not of that
canonical form can never be queried by the loop. -/
theorem c10_lookup_key_canonical (t : Table) (s : String) (n : Int)
    (h : pyInt s = some n) (hpos : 0 < n) :
    (loopStep t s).1 = displayPerson (pyStrInt n) t ∧
    isCanonicalPosDec (pyStrInt n) = true := by
  constructor
  · rw [loopStep, h]
    simp only [if_neg (by omega : ¬ n ≤ 0)]
  · exact isCanonicalPosDec_pyStrInt n hpos

theorem c10_witness :
    (loopStep [("01", ("Hidden", ⟨1990, 1, 1⟩))] "01").1 =
      displayPerson "1" [("01", ("Hidden", ⟨1990, 1, 1⟩))] ∧
    (loopStep [("01", ("Hidden", ⟨1990, 1, 1⟩))] " 1 ").1 =
      displayPerson "1" [("01", ("Hidden", ⟨1990, 1, 1⟩))] ∧
    (loopStep [("01", ("Hidden", ⟨1990, 1, 1⟩))] "+1").1 =
      displayPerson "1" [("01", ("Hidden", ⟨1990, 1, 1⟩))] ∧
    isCanonicalPosDec "01" = false :=
  ⟨(c10_lookup_key_canonical [("01", ("Hidden", ⟨1990, 1, 1⟩))] "01" 1 (by decide) (by decide)).1,
   (c10_lookup_key_canonical [("01", ("Hidden", ⟨1990, 1, 1⟩))] " 1 " 1 (by decide) (by decide)).1,
   (c10_lookup_key_canonical [("01", ("Hidden", ⟨1990, 1, 1⟩))] "+1" 1 (by decide) (by decide)).1,
   by decide⟩
